import Mathlib

/-!
Verification model of `src/js/cookies.js` (first `CookieManager` class,
lines 1-420): a consent-gated resource loader.  Strings are modelled as
`List Char`; the browser cookie jar, `sessionStorage` and the script DOM
are explicit state.  The JS built-ins the file relies on
(`encodeURIComponent` / `decodeURIComponent`, `JSON.stringify` /
`JSON.parse` on flat string-valued objects, `document.cookie` rendering)
are modelled character-by-character on the ASCII fragment the program
actually stores.
-/

namespace Cookies

/-- The characters that JS `encodeURIComponent` leaves unescaped:
ASCII letters, digits, and `- _ . ! ~ * ( )` and the apostrophe (code 39). -/
def isUnreserved (c : Char) : Bool :=
  c.isAlphanum || c == '-' || c == '_' || c == '.' || c == '!' || c == '~' ||
  c == '*' || c.toNat == 39 || c == '(' || c == ')'

/-- Uppercase hex digit for a nibble, as produced by `encodeURIComponent`. -/
def hexDigitChar (n : Nat) : Char :=
  if n < 10 then Char.ofNat (48 + n) else Char.ofNat (55 + n)

/-- Value of a hex digit character (either case), `none` otherwise. -/
def hexVal (c : Char) : Option Nat :=
  if 48 ≤ c.toNat ∧ c.toNat ≤ 57 then some (c.toNat - 48)
  else if 65 ≤ c.toNat ∧ c.toNat ≤ 70 then some (c.toNat - 55)
  else if 97 ≤ c.toNat ∧ c.toNat ≤ 102 then some (c.toNat - 87)
  else none

/-- `encodeURIComponent` on one character (ASCII fragment: one-byte escape). -/
def encodeChar (c : Char) : List Char :=
  if isUnreserved c then [c]
  else ['%', hexDigitChar (c.toNat / 16 % 16), hexDigitChar (c.toNat % 16)]

/-- Model of JS `encodeURIComponent` on ASCII strings. -/
def encodeURIComponent : List Char → List Char
  | [] => []
  | c :: rest => encodeChar c ++ encodeURIComponent rest

/-- Model of JS `decodeURIComponent`; `none` models the `URIError` thrown
on a malformed percent sequence. -/
def decodeURIComponent : List Char → Option (List Char)
  | [] => some []
  | c :: rest =>
    if c == '%' then
      match rest with
      | c1 :: c2 :: rest2 =>
        match hexVal c1, hexVal c2 with
        | some h, some l =>
          (decodeURIComponent rest2).map (fun t => Char.ofNat (16 * h + l) :: t)
        | _, _ => none
      | _ => none
    else
      (decodeURIComponent rest).map (fun t => c :: t)

/-- A character needing no JSON string escaping: not `"` and not a backslash. -/
def plainChar (c : Char) : Bool := !(c == '"') && !(c.toNat == 92)

/-- All characters of the string are JSON-plain. -/
def plainStr (s : List Char) : Bool := s.all plainChar

/-- All characters are ASCII (the fragment our URI-coding model covers). -/
def asciiStr (s : List Char) : Bool := s.all (fun c => c.toNat < 128)

/-- Body of a JSON string literal up to the closing quote (no escapes). -/
def parseStrBody : List Char → Option (List Char × List Char)
  | [] => none
  | c :: rest =>
    if c == '"' then some ([], rest)
    else if c.toNat == 92 then none
    else (parseStrBody rest).map (fun p => (c :: p.1, p.2))

/-- A JSON string literal `"..."`. -/
def parseStringLit : List Char → Option (List Char × List Char)
  | [] => none
  | c :: rest => if c == '"' then parseStrBody rest else none

/-- One `"key":"value"` member of a flat JSON object. -/
def parsePair (cs : List Char) : Option ((List Char × List Char) × List Char) :=
  match parseStringLit cs with
  | some (k, rest) =>
    match rest with
    | c :: rest2 =>
      if c == ':' then
        match parseStringLit rest2 with
        | some (v, rest3) => some ((k, v), rest3)
        | none => none
      else none
    | [] => none
  | none => none

/-- The member-list loop with explicit fuel (each step consumes at least
one pair, so any fuel above the input length behaves identically). -/
def parseMembersF : Nat → List Char → Option (List (List Char × List Char) × List Char)
  | 0, _ => none
  | fuel + 1, cs =>
    match parsePair cs with
    | none => none
    | some (p, rest) =>
      match rest with
      | [] => some ([p], [])
      | c :: rest2 =>
        if c == ',' then
          match parseMembersF fuel rest2 with
          | some (ps, rest3) => some (p :: ps, rest3)
          | none => none
        else some ([p], c :: rest2)

/-- The member list of a flat JSON object: `pair (, pair)*`, returning the
unconsumed remainder. -/
def parseMembers (cs : List Char) : Option (List (List Char × List Char) × List Char) :=
  parseMembersF (cs.length + 1) cs

/-- Model of `JSON.parse` restricted to flat objects with string values
(the only shape this program ever stores); anything else is a parse
failure, which the source meets with `try`/`catch`. -/
def parseFlatObj (cs : List Char) : Option (List (List Char × List Char)) :=
  match cs with
  | [] => none
  | c :: rest =>
    if c == '{' then
      match rest with
      | [] => none
      | d :: rest2 =>
        if d == '}' then (if rest2.isEmpty then some [] else none)
        else
          match parseMembers rest with
          | some (ps, rest3) => if rest3 == ['}'] then some ps else none
          | none => none
    else none

/-- A JSON string literal around `s` (no escaping; used on plain strings). -/
def quoteStr (s : List Char) : List Char := '"' :: s ++ '"' :: []

/-- Serialization of one object member, `"k":"v"`. -/
def encodeMember (p : List Char × List Char) : List Char :=
  quoteStr p.1 ++ ':' :: quoteStr p.2

/-- Serialization of a member list, comma-separated. -/
def encodeMembers : List (List Char × List Char) → List Char
  | [] => []
  | [p] => encodeMember p
  | p :: ps => encodeMember p ++ ',' :: encodeMembers ps

/-- Model of `JSON.stringify` on a flat string-valued object (insertion
order, no whitespace — exactly what JS produces). -/
def stringifyFlatObj (ps : List (List Char × List Char)) : List Char :=
  '{' :: encodeMembers ps ++ '}' :: []

/-- `document.cookie` splitting on `;` as done by `getCookie`. -/
def splitSemi : List Char → List (List Char)
  | [] => [[]]
  | c :: rest =>
    if c == ';' then [] :: splitSemi rest
    else
      match splitSemi rest with
      | [] => [[c]]
      | g :: gs => (c :: g) :: gs

theorem splitSemi_ne_nil (l : List Char) : splitSemi l ≠ [] := by
  cases l with
  | nil => simp [splitSemi]
  | cons c rest =>
    simp only [splitSemi]
    by_cases hc : c == ';'
    · simp [hc]
    · simp only [hc, if_false]
      cases splitSemi rest with
      | nil => simp
      | cons g gs => simp

/-! ### The browser state touched by `CookieManager` -/

/-- One cookie of the browser jar: name, (already percent-encoded) value,
and the `expires` window in days that was set with it. -/
structure CookieEntry where
  name : List Char
  value : List Char
  days : Nat
  deriving DecidableEq, Repr

/-- Browser cookie-jar semantics of assigning `document.cookie`: replace
the cookie with the same name, else append. -/
def setCookieJar (jar : List CookieEntry) (name value : List Char) (days : Nat) :
    List CookieEntry :=
  if jar.any (fun e => e.name == name) then
    jar.map (fun e => if e.name == name then { e with value := value, days := days } else e)
  else jar ++ [{ name := name, value := value, days := days }]

/-- The string the `document.cookie` getter yields: entries joined by `; `. -/
def renderJar : List CookieEntry → List Char
  | [] => []
  | [e] => e.name ++ '=' :: e.value
  | e :: es => e.name ++ '=' :: e.value ++ ';' :: ' ' :: renderJar es

/-- A `<script>` element: its `src`, the `data-category` attribute set by
`loadScript` (static markup tags have none), the `data-blocked` marker, and
the integrity / crossOrigin attributes. -/
structure ScriptTag where
  src : List Char
  category : Option (List Char)
  blocked : Bool
  integrity : Option (List Char)
  crossOrigin : Option (List Char)
  deriving DecidableEq, Repr

/-- The state a `CookieManager` instance owns or observes: its in-memory
`consentStatus` field, the cookie jar, the `cookie-banner-shown`
sessionStorage slot, the script elements of the document, whether the
banner element exists, and whether its class list contains `show`. -/
structure CMState where
  consentStatus : Option (List Char)
  jar : List CookieEntry
  sessionBannerShown : Option (List Char)
  scripts : List ScriptTag
  bannerPresent : Bool
  bannerShow : Bool
  deriving DecidableEq, Repr

/-- Observable effects: a script load request (network fetch of a DOM
injection) and the `cookieConsentChanged` custom event. -/
inductive Ev where
  | loadRequest (src : List Char) (category : List Char)
  | consentChanged (status : List Char)
  deriving DecidableEq, Repr

/-! ### Constants of the source (`constructor`, lines 12-22) -/

def cookieName : List Char := "cookie-consent".data

def cookieExpiry : Nat := 365

def essentialScripts : List (List Char) :=
  ["js/main.js".data, "js/cookies.js".data]

def analyticsScripts : List (List Char) :=
  ["js/analytics.js".data, "js/3d-scene.js".data, "js/testimonials.js".data]

def marketingScripts : List (List Char) :=
  ["js/tracking.js".data]

def externalScripts : List (List Char) :=
  ["https://cdnjs.cloudflare.com/ajax/libs/three.js/r128/three.min.js".data,
   "https://unpkg.com/leaflet@1.9.4/dist/leaflet.js".data]

/-! ### Cookie primitives (`setCookie`, `getCookie`, `deleteCookie`) -/

/-- JS `String.prototype.includes`. -/
def jsIncludes : List Char → List Char → Bool
  | [], needle => needle.isPrefixOf ([] : List Char)
  | c :: t, needle => needle.isPrefixOf (c :: t) || jsIncludes t needle

/-- `setCookie(name, value, days)`: percent-encodes the value and assigns
`document.cookie` (the `expires`/`path`/`SameSite` attributes become the
jar entry's metadata). -/
def setCookie (jar : List CookieEntry) (name value : List Char) (days : Nat) :
    List CookieEntry :=
  setCookieJar jar name (encodeURIComponent value) days

/-- The `name + "="` prefix `getCookie` searches for. -/
def nameEQ (name : List Char) : List Char := name ++ ['=']

/-- The scan loop of `getCookie`: trim leading spaces, return the suffix of
the first piece starting with `name=`. -/
def findCookiePiece (pieces : List (List Char)) (key : List Char) : Option (List Char) :=
  match pieces with
  | [] => none
  | p :: rest =>
    let c := p.dropWhile (fun ch => ch == ' ')
    if (nameEQ key).isPrefixOf c then some (c.drop (nameEQ key).length)
    else findCookiePiece rest key

/-- `getCookie(name)`: split `document.cookie` on `;`, find the piece, and
`decodeURIComponent` it — which throws (`Except.error`) on a malformed
percent sequence. -/
def getCookie (jar : List CookieEntry) (name : List Char) :
    Except String (Option (List Char)) :=
  match findCookiePiece (splitSemi (renderJar jar)) name with
  | none => Except.ok none
  | some raw =>
    match decodeURIComponent raw with
    | some v => Except.ok (some v)
    | none => Except.error "URIError"

/-- `deleteCookie(name)`: the past `expires` date makes the browser drop
the cookie. -/
def deleteCookie (jar : List CookieEntry) (name : List Char) : List CookieEntry :=
  jar.filter (fun e => !(e.name == name))

/-! ### ConsentStore operations -/

/-- The `consentData.status` property access: the first `status` member of
the parsed object, `none` when absent (JS `undefined`). -/
def getStatusField (ps : List (List Char × List Char)) : Option (List Char) :=
  (ps.find? (fun p => p.1 == "status".data)).map (fun p => p.2)

/-- `getConsentStatus()` (lines 160-174): read the cookie, return `null`
when absent; `JSON.parse` under `try`/`catch`, returning `null` on a parse
failure, else the payload's `status` property verbatim.  An exception from
`getCookie` is outside the `try` and propagates. -/
def getConsentStatus (jar : List CookieEntry) : Except String (Option (List Char)) :=
  match getCookie jar cookieName with
  | Except.error e => Except.error e
  | Except.ok none => Except.ok none
  | Except.ok (some v) =>
    match parseFlatObj v with
    | none => Except.ok none
    | some ps => Except.ok (getStatusField ps)

/-- The `JSON.stringify({status, timestamp, version: '2.0'})` payload of
`setConsentStatus`. -/
def consentCookieValue (status nowIso : List Char) : List Char :=
  stringifyFlatObj
    [("status".data, status), ("timestamp".data, nowIso), ("version".data, "2.0".data)]

/-! ### ConsentController state and operations -/

/-- `showBanner()`: adds the `show` class when the banner element exists. -/
def showBanner (s : CMState) : CMState :=
  if s.bannerPresent then { s with bannerShow := true } else s

/-- `hideBanner()`: removes the `show` class when the banner element exists. -/
def hideBanner (s : CMState) : CMState :=
  if s.bannerPresent then { s with bannerShow := false } else s

/-- `setConsentStatus(status)` (lines 142-158): update the in-memory field,
persist the JSON record for 365 days, dispatch `cookieConsentChanged`.
`nowIso` is the `new Date().toISOString()` clock input. -/
def setConsentStatus (s : CMState) (status nowIso : List Char) : CMState × List Ev :=
  ({ s with
      consentStatus := some status,
      jar := setCookie s.jar cookieName (consentCookieValue status nowIso) cookieExpiry },
   [Ev.consentChanged status])

/-- `isEssentialScript(src)` (lines 226-228): substring match against the
essential identifiers. -/
def isEssentialScript (src : List Char) : Bool :=
  essentialScripts.any (fun e => jsIncludes src e)

/-- `blockNonEssentialScripts()` (lines 212-223): mark every `script[src]`
element that is not essential with `data-blocked` (and hide it). -/
def blockNonEssentialScripts (s : CMState) : CMState :=
  { s with
      scripts := s.scripts.map
        (fun t => if isEssentialScript t.src then t else { t with blocked := true }) }

/-- `loadScript(src, category)` (lines 266-296): no-op when a script tag
with this `src` already exists; else inject a tagged script element
(attaching integrity/crossOrigin for the three.js CDN URL) — the append is
the load request. -/
def loadScript (s : CMState) (src category : List Char) : CMState × List Ev :=
  if s.scripts.any (fun t => t.src == src) then (s, [])
  else
    let tag0 : ScriptTag :=
      { src := src, category := some category, blocked := false,
        integrity := none, crossOrigin := none }
    let tag :=
      if jsIncludes src "https://".data then
        if jsIncludes src "three.js".data then
          { tag0 with
              integrity := some "sha256-20nQCchB9co0qIjJZRGuk2/Z9VM+kNiyxNV1lvTlZBo=".data,
              crossOrigin := some [] }
        else tag0
      else tag0
    ({ s with scripts := s.scripts ++ [tag] }, [Ev.loadRequest src category])

/-- The `forEach(path => this.loadScript(path, category))` loops. -/
def loadScriptList (s : CMState) (srcs : List (List Char)) (category : List Char) :
    CMState × List Ev :=
  match srcs with
  | [] => (s, [])
  | x :: xs =>
    let r := loadScript s x category
    let r2 := loadScriptList r.1 xs category
    (r2.1, r.2 ++ r2.2)

/-- `loadEssentialScripts()` (lines 231-241). -/
def loadEssentialScripts (s : CMState) : CMState × List Ev :=
  loadScriptList s essentialScripts "essential".data

/-- `loadAllScripts()` (lines 244-263): essential first, then — only while
`consentStatus === 'accepted'` — the analytics and external catalogs.  The
marketing catalog is never iterated. -/
def loadAllScripts (s : CMState) : CMState × List Ev :=
  let r1 := loadEssentialScripts s
  if r1.1.consentStatus == some "accepted".data then
    let r2 := loadScriptList r1.1 analyticsScripts "analytics".data
    let r3 := loadScriptList r2.1 externalScripts "external".data
    (r3.1, r1.2 ++ r2.2 ++ r3.2)
  else r1

/-- `checkConsent()` (lines 71-102). -/
def checkConsent (s : CMState) : CMState × List Ev :=
  if s.consentStatus == some "accepted".data then
    loadAllScripts (hideBanner s)
  else if s.consentStatus == some "declined".data then
    loadEssentialScripts (hideBanner s)
  else if s.sessionBannerShown == some "true".data then
    loadEssentialScripts (hideBanner s)
  else
    loadEssentialScripts
      { showBanner s with sessionBannerShown := some "true".data }

/-- `acceptCookies()` (lines 124-131). -/
def acceptCookies (s : CMState) (nowIso : List Char) : CMState × List Ev :=
  let r1 := setConsentStatus s "accepted".data nowIso
  let r2 := loadAllScripts (hideBanner r1.1)
  ({ r2.1 with sessionBannerShown := some "true".data }, r1.2 ++ r2.2)

/-- `declineCookies()` (lines 133-140). -/
def declineCookies (s : CMState) (nowIso : List Char) : CMState × List Ev :=
  let r1 := setConsentStatus s "declined".data nowIso
  let r2 := loadEssentialScripts (hideBanner r1.1)
  ({ r2.1 with sessionBannerShown := some "true".data }, r1.2 ++ r2.2)

/-- `updateConsent(newStatus)` (lines 358-368). -/
def updateConsent (s : CMState) (newStatus nowIso : List Char) : CMState × List Ev :=
  if newStatus == "accepted".data || newStatus == "declined".data then
    let r1 := setConsentStatus s newStatus nowIso
    if newStatus == "accepted".data then
      let r2 := loadAllScripts r1.1
      (r2.1, r1.2 ++ r2.2)
    else
      let r2 := loadEssentialScripts r1.1
      (r2.1, r1.2 ++ r2.2)
  else (s, [])

/-- `resetConsent()` (lines 370-374). -/
def resetConsent (s : CMState) : CMState :=
  showBanner
    { s with jar := deleteCookie s.jar cookieName, consentStatus := none }

/-- `isCategoryAllowed(category)` (lines 376-386). -/
def isCategoryAllowed (s : CMState) (category : List Char) : Bool :=
  if s.consentStatus == some "accepted".data then true
  else if s.consentStatus == some "declined".data then category == "essential".data
  else false

/-- `hasConsent()` (lines 354-356). -/
def hasConsent (s : CMState) : Bool :=
  s.consentStatus == some "accepted".data

/-- `new CookieManager()` followed by `init()`: read the persisted status
(propagating a decode exception), block non-essential markup scripts
synchronously, then — when the banner element exists — `checkConsent()`;
without it `init` returns before any load. -/
def constructorRun (jar : List CookieEntry) (sessionBannerShown : Option (List Char))
    (scripts : List ScriptTag) (bannerPresent : Bool) :
    Except String (CMState × List Ev) :=
  match getConsentStatus jar with
  | Except.error e => Except.error e
  | Except.ok status =>
    let s0 : CMState :=
      { consentStatus := status, jar := jar, sessionBannerShown := sessionBannerShown,
        scripts := scripts, bannerPresent := bannerPresent, bannerShow := false }
    let s1 := blockNonEssentialScripts s0
    if bannerPresent then Except.ok (checkConsent s1)
    else Except.ok (s1, [])

/-- The controller operations, for invariant statements quantifying over
what the page can invoke after construction. -/
inductive Op where
  | checkConsentOp
  | acceptOp (nowIso : List Char)
  | declineOp (nowIso : List Char)
  | updateOp (newStatus nowIso : List Char)
  | resetOp
  | loadOp (src category : List Char)
  | showOp
  | hideOp
  | blockOp
  deriving DecidableEq, Repr

/-- Effect of one operation on the state, with its emitted events. -/
def applyOp (op : Op) (s : CMState) : CMState × List Ev :=
  match op with
  | Op.checkConsentOp => checkConsent s
  | Op.acceptOp ts => acceptCookies s ts
  | Op.declineOp ts => declineCookies s ts
  | Op.updateOp st ts => updateConsent s st ts
  | Op.resetOp => (resetConsent s, [])
  | Op.loadOp src cat => loadScript s src cat
  | Op.showOp => (showBanner s, [])
  | Op.hideOp => (hideBanner s, [])
  | Op.blockOp => (blockNonEssentialScripts s, [])

/-- The operations reachable from the page without calling the raw
`loadScript` helper directly. -/
def Op.isDirectLoad : Op → Bool
  | Op.loadOp _ _ => true
  | _ => false

/-- The sources requested in an event list. -/
def loadedSrcs (evs : List Ev) : List (List Char) :=
  evs.filterMap (fun e => match e with
    | Ev.loadRequest src _ => some src
    | _ => none)

/-- The `cookie-banner-shown` session flag read as the source reads it. -/
def sessionFlagSet (s : CMState) : Bool :=
  s.sessionBannerShown == some "true".data

/-! ### Well-formedness of jar entries (what real browser cookies satisfy:
no `;`, no space, no `=` inside a cookie name; no `;`, no space in a
stored value) -/

def wfName (n : List Char) : Bool :=
  n.all (fun c => !(c == ';') && !(c == ' ') && !(c == '='))

def wfValue (v : List Char) : Bool :=
  v.all (fun c => !(c == ';') && !(c == ' '))

def wfJar (jar : List CookieEntry) : Bool :=
  jar.all (fun e => wfName e.name && wfValue e.value)

/-! ### Percent-coding round trip -/

theorem hexVal_hexDigitChar : ∀ n < 16, hexVal (hexDigitChar n) = some n := by decide

theorem hexDigitChar_plainCookie :
    ∀ n < 16, (!(hexDigitChar n == ';') && !(hexDigitChar n == ' ')) = true := by decide

theorem decode_encodeChar (c : Char) (hc : c.toNat < 128) (t : List Char) :
    decodeURIComponent (encodeChar c ++ t)
      = (decodeURIComponent t).map (fun r => c :: r) := by
  unfold encodeChar
  by_cases hu : isUnreserved c = true
  · simp only [hu, if_true, List.cons_append, List.nil_append]
    have hp : (c == '%') = false := by
      cases h : (c == '%') with
      | false => rfl
      | true =>
        have hc2 : c = '%' := eq_of_beq h
        subst hc2
        exact absurd hu (by decide)
    rw [decodeURIComponent.eq_def]
    simp [hp]
  · have hu2 : isUnreserved c = false := by simpa using hu
    have h1 := hexVal_hexDigitChar (c.toNat / 16 % 16) (Nat.mod_lt _ (by norm_num))
    have h2 := hexVal_hexDigitChar (c.toNat % 16) (Nat.mod_lt _ (by norm_num))
    have harith : 16 * (c.toNat / 16 % 16) + c.toNat % 16 = c.toNat := by
      have hlt : c.toNat / 16 < 16 := by omega
      rw [Nat.mod_eq_of_lt hlt]
      exact Nat.div_add_mod c.toNat 16
    have hofNat : Char.ofNat (16 * (c.toNat / 16 % 16) + c.toNat % 16) = c := by
      rw [harith]
      exact Char.ofNat_toNat c
    simp only [hu2, if_false, List.cons_append, List.nil_append]
    rw [decodeURIComponent.eq_def]
    simp [h1, h2, hofNat]

theorem decode_encode (s : List Char) (h : asciiStr s = true) :
    decodeURIComponent (encodeURIComponent s) = some s := by
  induction s with
  | nil => simp [encodeURIComponent, decodeURIComponent]
  | cons c t ih =>
    have hc : c.toNat < 128 ∧ asciiStr t = true := by
      simpa [asciiStr] using h
    rw [show encodeURIComponent (c :: t) = encodeChar c ++ encodeURIComponent t from rfl]
    rw [decode_encodeChar c hc.1, ih hc.2]
    rfl

/-- Cookie-safe output of the encoder: no `;` and no space ever appears. -/
theorem wfValue_encode (s : List Char) : wfValue (encodeURIComponent s) = true := by
  induction s with
  | nil => simp [encodeURIComponent, wfValue]
  | cons c t ih =>
    rw [show encodeURIComponent (c :: t) = encodeChar c ++ encodeURIComponent t from rfl]
    simp only [wfValue, List.all_append, Bool.and_eq_true]
    refine ⟨?_, by simpa [wfValue] using ih⟩
    unfold encodeChar
    by_cases hu : isUnreserved c = true
    · simp only [hu, if_true, List.all_cons, List.all_nil, Bool.and_true]
      have hs : (c == ';') = false := by
        cases h : (c == ';') with
        | false => rfl
        | true =>
          have hc2 : c = ';' := eq_of_beq h
          subst hc2
          exact absurd hu (by decide)
      have hsp : (c == ' ') = false := by
        cases h : (c == ' ') with
        | false => rfl
        | true =>
          have hc2 : c = ' ' := eq_of_beq h
          subst hc2
          exact absurd hu (by decide)
      simp [hs, hsp]
    · have hu2 : isUnreserved c = false := by simpa using hu
      have g1 := hexDigitChar_plainCookie (c.toNat / 16 % 16) (Nat.mod_lt _ (by norm_num))
      have g2 := hexDigitChar_plainCookie (c.toNat % 16) (Nat.mod_lt _ (by norm_num))
      simp only [Bool.and_eq_true] at g1 g2
      simp [hu2, g1.1, g1.2, g2.1, g2.2]

/-! ### JSON stringify/parse round trip on flat string objects -/

theorem parseStrBody_append (s rest : List Char) (h : plainStr s = true) :
    parseStrBody (s ++ '"' :: rest) = some (s, rest) := by
  induction s with
  | nil => simp [parseStrBody]
  | cons c t ih =>
    have hc : plainChar c = true ∧ plainStr t = true := by
      simpa [plainStr] using h
    have hq : (c == '"') = false ∧ (c.toNat == 92) = false := by
      have := hc.1
      simp only [plainChar, Bool.and_eq_true, Bool.not_eq_true'] at this
      exact this
    simp [parseStrBody, hq.1, hq.2, ih hc.2]

theorem parseStringLit_quote (s rest : List Char) (h : plainStr s = true) :
    parseStringLit (quoteStr s ++ rest) = some (s, rest) := by
  have hform : quoteStr s ++ rest = '"' :: (s ++ '"' :: rest) := by
    simp [quoteStr]
  rw [hform]
  simp [parseStringLit, parseStrBody_append s rest h]

theorem parsePair_encodeMember (p : List Char × List Char) (rest : List Char)
    (hk : plainStr p.1 = true) (hv : plainStr p.2 = true) :
    parsePair (encodeMember p ++ rest) = some (p, rest) := by
  obtain ⟨k, v⟩ := p
  have hform : encodeMember (k, v) ++ rest = quoteStr k ++ (':' :: (quoteStr v ++ rest)) := by
    simp [encodeMember, List.append_assoc]
  rw [hform]
  unfold parsePair
  rw [parseStringLit_quote k _ hk]
  simp [parseStringLit_quote v rest hv]

theorem parseMembersF_encodeMembers (ps : List (List Char × List Char))
    (p : List Char × List Char) (rest : List Char) (fuel : Nat)
    (hf : ps.length < fuel)
    (hall : ∀ q ∈ p :: ps, plainStr q.1 = true ∧ plainStr q.2 = true) :
    parseMembersF fuel (encodeMembers (p :: ps) ++ '}' :: rest)
      = some (p :: ps, '}' :: rest) := by
  induction ps generalizing p fuel with
  | nil =>
    obtain ⟨f, rfl⟩ : ∃ f, fuel = f + 1 := ⟨fuel - 1, by omega⟩
    have hp := hall p (by simp)
    rw [show encodeMembers [p] = encodeMember p from rfl]
    show (match parsePair (encodeMember p ++ '}' :: rest) with
      | none => none
      | some (q, rest1) =>
        match rest1 with
        | [] => some ([q], [])
        | c :: rest2 =>
          if c == ',' then
            match parseMembersF f rest2 with
            | some (qs, rest3) => some (q :: qs, rest3)
            | none => none
          else some ([q], c :: rest2)) = some ([p], '}' :: rest)
    rw [parsePair_encodeMember p ('}' :: rest) hp.1 hp.2]
    rfl
  | cons p2 ps2 ih =>
    obtain ⟨f, rfl⟩ : ∃ f, fuel = f + 1 := ⟨fuel - 1, by omega⟩
    have hp := hall p (by simp)
    have hform : encodeMembers (p :: p2 :: ps2) ++ '}' :: rest
        = encodeMember p ++ (',' :: (encodeMembers (p2 :: ps2) ++ '}' :: rest)) := by
      simp [encodeMembers, List.append_assoc]
    have hrec := ih p2 f (by simp at hf ⊢; omega) (fun q hq => hall q (by
      simp only [List.mem_cons] at hq ⊢
      tauto))
    rw [hform]
    show (match parsePair (encodeMember p
        ++ (',' :: (encodeMembers (p2 :: ps2) ++ '}' :: rest))) with
      | none => none
      | some (q, rest1) =>
        match rest1 with
        | [] => some ([q], [])
        | c :: rest2 =>
          if c == ',' then
            match parseMembersF f rest2 with
            | some (qs, rest3) => some (q :: qs, rest3)
            | none => none
          else some ([q], c :: rest2)) = some (p :: p2 :: ps2, '}' :: rest)
    rw [parsePair_encodeMember p (',' :: (encodeMembers (p2 :: ps2) ++ '}' :: rest)) hp.1 hp.2]
    simp [hrec]

theorem length_le_encodeMembers (ps : List (List Char × List Char))
    (p : List Char × List Char) :
    ps.length ≤ (encodeMembers (p :: ps)).length := by
  induction ps generalizing p with
  | nil => simp
  | cons p2 ps2 ih =>
    have := ih p2
    rw [show encodeMembers (p :: p2 :: ps2)
        = encodeMember p ++ ',' :: encodeMembers (p2 :: ps2) from rfl]
    simp only [List.length_append, List.length_cons]
    omega

theorem parseMembers_encodeMembers (p : List Char × List Char)
    (ps : List (List Char × List Char)) (rest : List Char)
    (hall : ∀ q ∈ p :: ps, plainStr q.1 = true ∧ plainStr q.2 = true) :
    parseMembers (encodeMembers (p :: ps) ++ '}' :: rest)
      = some (p :: ps, '}' :: rest) := by
  unfold parseMembers
  apply parseMembersF_encodeMembers ps p rest _ _ hall
  have h1 := length_le_encodeMembers ps p
  simp only [List.length_append, List.length_cons]
  omega

theorem parseFlatObj_stringify (p : List Char × List Char)
    (ps : List (List Char × List Char))
    (hall : ∀ q ∈ p :: ps, plainStr q.1 = true ∧ plainStr q.2 = true) :
    parseFlatObj (stringifyFlatObj (p :: ps)) = some (p :: ps) := by
  have hmem := parseMembers_encodeMembers p ps [] hall
  have hhead : ∃ t2, encodeMembers (p :: ps) = '"' :: t2 := by
    cases ps with
    | nil => exact ⟨p.1 ++ '"' :: ':' :: quoteStr p.2, by simp [encodeMembers, encodeMember, quoteStr]⟩
    | cons q qs =>
      exact ⟨p.1 ++ '"' :: ':' :: quoteStr p.2 ++ ',' :: encodeMembers (q :: qs), by
        simp [encodeMembers, encodeMember, quoteStr]⟩
  obtain ⟨t2, ht⟩ := hhead
  have hs : stringifyFlatObj (p :: ps) = '{' :: ('"' :: (t2 ++ '}' :: [])) := by
    simp [stringifyFlatObj, ht]
  rw [ht] at hmem
  rw [List.cons_append] at hmem
  rw [hs]
  simp only [parseFlatObj]
  rw [hmem]
  simp

/-! ### `document.cookie` rendering versus `getCookie`'s scan -/

theorem wfName_parts (n : List Char) (h : wfName n = true) :
    ∀ c ∈ n, (c == ';') = false ∧ (c == ' ') = false ∧ (c == '=') = false := by
  intro c hc
  have hx := List.all_eq_true.mp h c hc
  simp only [Bool.and_eq_true, Bool.not_eq_true'] at hx
  exact ⟨hx.1.1, hx.1.2, hx.2⟩

theorem wfValue_parts (v : List Char) (h : wfValue v = true) :
    ∀ c ∈ v, (c == ';') = false ∧ (c == ' ') = false := by
  intro c hc
  have hx := List.all_eq_true.mp h c hc
  simp only [Bool.and_eq_true, Bool.not_eq_true'] at hx
  exact hx

theorem splitSemi_append (a l : List Char) (h : ∀ c ∈ a, (c == ';') = false) :
    splitSemi (a ++ l) = (a ++ (splitSemi l).headI) :: (splitSemi l).tail := by
  induction a with
  | nil =>
    cases hsl : splitSemi l with
    | nil => exact absurd hsl (splitSemi_ne_nil l)
    | cons g gs => simp [hsl]
  | cons c t ih =>
    have hc := h c (by simp)
    have ht : ∀ x ∈ t, (x == ';') = false := fun x hx => h x (by simp [hx])
    rw [List.cons_append]
    rw [show splitSemi (c :: (t ++ l))
        = if c == ';' then [] :: splitSemi (t ++ l)
          else match splitSemi (t ++ l) with
            | [] => [[c]]
            | g :: gs => (c :: g) :: gs from rfl]
    rw [hc]
    rw [ih ht]
    simp

/-- A cookie piece whose name part is well formed survives the space trim. -/
theorem dropWhile_space_entry (n v : List Char) (hn : wfName n = true) :
    (n ++ '=' :: v).dropWhile (fun ch => ch == ' ') = n ++ '=' :: v := by
  cases n with
  | nil => simp [List.dropWhile]
  | cons c t =>
    have hc := (wfName_parts (c :: t) hn c (by simp)).2.1
    simp [List.dropWhile, hc]

theorem keyEq_prefix_eq (key n v : List Char)
    (hk : ∀ c ∈ key, (c == '=') = false) (hn : ∀ c ∈ n, (c == '=') = false) :
    (nameEQ key).isPrefixOf (n ++ '=' :: v) = (n == key) := by
  induction key generalizing n with
  | nil =>
    cases n with
    | nil => simp [nameEQ, List.isPrefixOf]
    | cons c t =>
      have hc := hn c (by simp)
      have hc2 : ('=' == c) = false := by rw [Bool.beq_comm]; exact hc
      rw [show nameEQ ([] : List Char) = ['='] from rfl]
      rw [List.cons_append, show (['='] : List Char).isPrefixOf (c :: (t ++ '=' :: v))
          = (('=' == c) && (([] : List Char).isPrefixOf (t ++ '=' :: v))) from rfl]
      simp [hc2]
  | cons k ks ih =>
    cases n with
    | nil =>
      have hkk := hk k (by simp)
      rw [show nameEQ (k :: ks) = k :: nameEQ ks from by simp [nameEQ]]
      rw [List.nil_append, show (k :: nameEQ ks).isPrefixOf ('=' :: v)
          = ((k == '=') && (nameEQ ks).isPrefixOf v) from rfl]
      simp [hkk]
    | cons c t =>
      have hkrest : ∀ x ∈ ks, (x == '=') = false := fun x hx => hk x (by simp [hx])
      have hnrest : ∀ x ∈ t, (x == '=') = false := fun x hx => hn x (by simp [hx])
      rw [show nameEQ (k :: ks) = k :: nameEQ ks from by simp [nameEQ]]
      rw [List.cons_append, show (k :: nameEQ ks).isPrefixOf (c :: (t ++ '=' :: v))
          = ((k == c) && (nameEQ ks).isPrefixOf (t ++ '=' :: v)) from rfl]
      rw [ih t hkrest hnrest]
      rw [show ((c :: t : List Char) == k :: ks) = ((c == k) && (t == ks)) from
        List.beq_cons₂ c k t ks]
      rw [Bool.beq_comm (a := k) (b := c)]

/-- Skipping the space that the `; ` jar separator puts in front of a piece. -/
theorem findCookiePiece_space (g : List Char) (gs : List (List Char)) (key : List Char) :
    findCookiePiece ((' ' :: g) :: gs) key = findCookiePiece (g :: gs) key := by
  simp [findCookiePiece, List.dropWhile]

/-- Processing one well-formed `name=value` piece. -/
theorem findCookiePiece_cons_entry (n v : List Char) (rest : List (List Char))
    (key : List Char) (hn : wfName n = true) (hk : ∀ c ∈ key, (c == '=') = false) :
    findCookiePiece ((n ++ '=' :: v) :: rest) key
      = if n == key then some v else findCookiePiece rest key := by
  have hn3 : ∀ c ∈ n, (c == '=') = false := fun c hc => (wfName_parts n hn c hc).2.2
  simp only [findCookiePiece]
  rw [dropWhile_space_entry n v hn]
  rw [keyEq_prefix_eq key n v hk hn3]
  by_cases he : (n == key) = true
  · have hkeq : n = key := eq_of_beq he
    subst hkeq
    rw [he]
    simp only [if_true]
    have hdrop : (n ++ '=' :: v).drop (nameEQ n).length = v := by
      have hform : n ++ '=' :: v = (n ++ ['=']) ++ v := by simp
      rw [hform]
      exact List.drop_left' (by simp [nameEQ])
    rw [hdrop]
  · have he2 : (n == key) = false := by simpa using he
    rw [he2]
    simp

/-- The scan of the rendered jar agrees with an association lookup, for
well-formed jars. -/
theorem findCookiePiece_renderJar (jar : List CookieEntry) (key : List Char)
    (hw : wfJar jar = true) (hk : ∀ c ∈ key, (c == '=') = false) :
    findCookiePiece (splitSemi (renderJar jar)) key
      = (jar.find? (fun e => e.name == key)).map (fun e => e.value) := by
  induction jar with
  | nil =>
    simp only [renderJar, splitSemi, findCookiePiece, List.find?]
    cases key with
    | nil => simp [nameEQ, List.isPrefixOf, findCookiePiece]
    | cons c t => simp [nameEQ, List.isPrefixOf, findCookiePiece]
  | cons e es ih =>
    have hwe : wfName e.name = true ∧ wfValue e.value = true := by
      have hx := List.all_eq_true.mp hw e (by simp)
      simpa [Bool.and_eq_true] using hx
    have hwes : wfJar es = true := by
      simp only [wfJar, List.all_eq_true] at hw ⊢
      exact fun x hx => hw x (by simp [hx])
    have hnosemi : ∀ c ∈ e.name ++ '=' :: e.value, (c == ';') = false := by
      intro c hc
      rcases List.mem_append.mp hc with hc1 | hc2
      · exact (wfName_parts e.name hwe.1 c hc1).1
      · rcases List.mem_cons.mp hc2 with hc3 | hc4
        · subst hc3; rfl
        · exact (wfValue_parts e.value hwe.2 c hc4).1
    cases es with
    | nil =>
      rw [show renderJar [e] = e.name ++ '=' :: e.value from rfl]
      rw [show (e.name ++ '=' :: e.value : List Char)
          = (e.name ++ '=' :: e.value) ++ [] from by simp]
      rw [splitSemi_append _ [] hnosemi]
      rw [show splitSemi ([] : List Char) = [[]] from rfl]
      simp only [List.headI, List.tail, List.append_nil]
      rw [findCookiePiece_cons_entry e.name e.value [] key hwe.1 hk]
      simp only [findCookiePiece, List.find?]
      by_cases he : (e.name == key) = true
      · rw [he]; simp [he]
      · have he2 : (e.name == key) = false := by simpa using he
        rw [he2]; simp [he2]
    | cons e2 rs =>
      rw [show renderJar (e :: e2 :: rs)
          = (e.name ++ '=' :: e.value) ++ ';' :: ' ' :: renderJar (e2 :: rs) from by
        simp [renderJar]]
      rw [splitSemi_append _ _ hnosemi]
      rw [show splitSemi (';' :: ' ' :: renderJar (e2 :: rs))
          = [] :: splitSemi (' ' :: renderJar (e2 :: rs)) from rfl]
      simp only [List.headI, List.tail, List.append_nil]
      cases hsp : splitSemi (renderJar (e2 :: rs)) with
      | nil => exact absurd hsp (splitSemi_ne_nil _)
      | cons g gs =>
        rw [show splitSemi (' ' :: renderJar (e2 :: rs))
            = match splitSemi (renderJar (e2 :: rs)) with
              | [] => [[' ']]
              | g :: gs => (' ' :: g) :: gs from rfl]
        rw [hsp]
        rw [findCookiePiece_cons_entry e.name e.value _ key hwe.1 hk]
        rw [findCookiePiece_space]
        rw [← hsp, ih hwes]
        by_cases he : (e.name == key) = true
        · rw [he]; simp [List.find?, he]
        · have he2 : (e.name == key) = false := by simpa using he
          rw [he2]; simp [List.find?, he2]

/-! ### The jar after a `setCookie` -/

theorem find_setCookieJar_replace (jar : List CookieEntry) (n v : List Char) (d : Nat)
    (hex : jar.any (fun e => e.name == n) = true) :
    ((jar.map (fun e => if e.name == n then { e with value := v, days := d } else e)).find?
        (fun e => e.name == n)).map (fun e => (e.value, e.days)) = some (v, d) := by
  induction jar with
  | nil => simp at hex
  | cons e es ih =>
    by_cases he : (e.name == n) = true
    · simp only [List.map_cons, if_pos he]
      rw [List.find?_cons_of_pos _ (by simpa using he)]
      simp
    · have he2 : (e.name == n) = false := by simpa using he
      have hex2 : es.any (fun x => x.name == n) = true := by
        simpa [List.any_cons, he2] using hex
      simp only [List.map_cons, if_neg he]
      rw [List.find?_cons_of_neg _ (by simpa using he)]
      exact ih hex2

theorem find_setCookieJar (jar : List CookieEntry) (n v : List Char) (d : Nat) :
    ((setCookieJar jar n v d).find? (fun e => e.name == n)).map (fun e => (e.value, e.days))
      = some (v, d) := by
  unfold setCookieJar
  by_cases hex : jar.any (fun e => e.name == n) = true
  · rw [if_pos hex]
    exact find_setCookieJar_replace jar n v d hex
  · have hex2 : jar.any (fun e => e.name == n) = false := by simpa using hex
    rw [if_neg (by simp [hex2])]
    rw [List.find?_append]
    have hnone : jar.find? (fun e => e.name == n) = none := by
      rw [List.find?_eq_none]
      intro x hx
      exact List.any_eq_false.mp hex2 x hx
    rw [hnone]
    simp [List.find?]

theorem find_setCookieJar_value (jar : List CookieEntry) (n v : List Char) (d : Nat) :
    ((setCookieJar jar n v d).find? (fun e => e.name == n)).map (fun e => e.value)
      = some v := by
  have hp := find_setCookieJar jar n v d
  cases hf : (setCookieJar jar n v d).find? (fun e => e.name == n) with
  | none => rw [hf] at hp; simp at hp
  | some e =>
    rw [hf] at hp
    simp only [Option.map_some', Option.some.injEq, Prod.mk.injEq] at hp
    simp [hp.1]

theorem wfJar_setCookieJar (jar : List CookieEntry) (n v : List Char) (d : Nat)
    (hw : wfJar jar = true) (hn : wfName n = true) (hv : wfValue v = true) :
    wfJar (setCookieJar jar n v d) = true := by
  unfold setCookieJar
  by_cases hex : jar.any (fun e => e.name == n) = true
  · rw [if_pos hex]
    simp only [wfJar, List.all_eq_true] at hw ⊢
    intro x hx
    obtain ⟨e, he, rfl⟩ := List.mem_map.mp hx
    by_cases hcond : (e.name == n) = true
    · rw [if_pos hcond]
      have hwe := hw e he
      simp only [Bool.and_eq_true] at hwe ⊢
      exact ⟨hwe.1, hv⟩
    · rw [if_neg hcond]
      exact hw e he
  · have hex2 : jar.any (fun e => e.name == n) = false := by simpa using hex
    rw [if_neg (by simp [hex2])]
    simp only [wfJar, List.all_append, List.all_cons, List.all_nil, Bool.and_eq_true] at hw ⊢
    exact ⟨by simpa [wfJar] using hw, by simp [hn, hv], trivial⟩

/-! ### ASCII and plainness of the persisted payload -/

theorem asciiStr_of_mem (s : List Char) (h : ∀ c ∈ s, c.toNat < 128) :
    asciiStr s = true := by
  rw [asciiStr, List.all_eq_true]
  intro c hc
  simpa using h c hc

theorem mem_ascii (s : List Char) (h : asciiStr s = true) :
    ∀ c ∈ s, c.toNat < 128 := by
  intro c hc
  have := List.all_eq_true.mp h c hc
  simpa using this

theorem mem_encodeMember (c : Char) (k v : List Char) (hc : c ∈ encodeMember (k, v)) :
    c = '"' ∨ c = ':' ∨ c ∈ k ∨ c ∈ v := by
  simp only [encodeMember, quoteStr, List.mem_append, List.mem_cons, List.not_mem_nil,
    or_false, List.cons_append, List.nil_append] at hc
  tauto

theorem asciiStr_consentCookieValue (st ts : List Char)
    (h1 : asciiStr st = true) (h2 : asciiStr ts = true) :
    asciiStr (consentCookieValue st ts) = true := by
  have hform : consentCookieValue st ts
      = '{' :: (encodeMember ("status".data, st)
          ++ ',' :: (encodeMember ("timestamp".data, ts)
          ++ ',' :: encodeMember ("version".data, "2.0".data)) ++ '}' :: []) := by
    simp [consentCookieValue, stringifyFlatObj, encodeMembers, List.append_assoc]
  apply asciiStr_of_mem
  intro c hc
  rw [hform] at hc
  simp only [List.mem_cons, List.mem_append, List.not_mem_nil, or_false] at hc
  have hk1 : ∀ x ∈ "status".data, Char.toNat x < 128 := mem_ascii _ (by decide)
  have hk2 : ∀ x ∈ "timestamp".data, Char.toNat x < 128 := mem_ascii _ (by decide)
  have hk3 : ∀ x ∈ "version".data, Char.toNat x < 128 := mem_ascii _ (by decide)
  have hk4 : ∀ x ∈ "2.0".data, Char.toNat x < 128 := mem_ascii _ (by decide)
  have hm1 := fun hx => mem_encodeMember c "status".data st hx
  have hm2 := fun hx => mem_encodeMember c "timestamp".data ts hx
  have hm3 := fun hx => mem_encodeMember c "version".data "2.0".data hx
  rcases hc with rfl | hc | rfl
  · decide
  · rcases hc with hx | rfl | hx | rfl | hx
    · rcases hm1 hx with rfl | rfl | hy | hy
      · decide
      · decide
      · exact hk1 c hy
      · exact mem_ascii st h1 c hy
    · decide
    · rcases hm2 hx with rfl | rfl | hy | hy
      · decide
      · decide
      · exact hk2 c hy
      · exact mem_ascii ts h2 c hy
    · decide
    · rcases hm3 hx with rfl | rfl | hy | hy
      · decide
      · decide
      · exact hk3 c hy
      · exact hk4 c hy
  · decide

/-- The parsed form of the persisted payload, for plain field values. -/
theorem parse_consentCookieValue (st ts : List Char)
    (h1 : plainStr st = true) (h2 : plainStr ts = true) :
    parseFlatObj (consentCookieValue st ts)
      = some [("status".data, st), ("timestamp".data, ts), ("version".data, "2.0".data)] := by
  apply parseFlatObj_stringify
  intro q hq
  simp only [List.mem_cons, List.not_mem_nil, or_false] at hq
  rcases hq with rfl | rfl | rfl
  · exact ⟨show plainStr "status".data = true by decide, h1⟩
  · exact ⟨show plainStr "timestamp".data = true by decide, h2⟩
  · exact ⟨show plainStr "version".data = true by decide,
      show plainStr "2.0".data = true by decide⟩

/-- Full round trip of the store: after `setConsentStatus`'s write, a fresh
`getConsentStatus` read of the jar yields the written status. -/
theorem getConsentStatus_after_set (jar : List CookieEntry) (st ts : List Char)
    (hw : wfJar jar = true)
    (hstp : plainStr st = true) (hsta : asciiStr st = true)
    (htsp : plainStr ts = true) (htsa : asciiStr ts = true) :
    getConsentStatus (setCookie jar cookieName (consentCookieValue st ts) cookieExpiry)
      = Except.ok (some st) := by
  have hn : wfName cookieName = true := by decide
  have hkeq : ∀ c ∈ cookieName, (c == '=') = false := by decide
  have hv := wfValue_encode (consentCookieValue st ts)
  have hwjar : wfJar (setCookie jar cookieName (consentCookieValue st ts) cookieExpiry)
      = true := wfJar_setCookieJar jar cookieName _ cookieExpiry hw hn hv
  have hpiece := findCookiePiece_renderJar
    (setCookie jar cookieName (consentCookieValue st ts) cookieExpiry) cookieName hwjar hkeq
  have hfind := find_setCookieJar_value jar cookieName
    (encodeURIComponent (consentCookieValue st ts)) cookieExpiry
  have hdec := decode_encode (consentCookieValue st ts)
    (asciiStr_consentCookieValue st ts hsta htsa)
  have hparse := parse_consentCookieValue st ts hstp htsp
  have hget : getCookie (setCookie jar cookieName (consentCookieValue st ts) cookieExpiry)
      cookieName = Except.ok (some (consentCookieValue st ts)) := by
    unfold getCookie
    rw [hpiece]
    rw [show setCookieJar jar cookieName (encodeURIComponent (consentCookieValue st ts))
        cookieExpiry
        = setCookie jar cookieName (consentCookieValue st ts) cookieExpiry from rfl] at hfind
    rw [hfind]
    show (match decodeURIComponent (encodeURIComponent (consentCookieValue st ts)) with
      | some v => Except.ok (some v)
      | none => Except.error "URIError") = Except.ok (some (consentCookieValue st ts))
    rw [hdec]
  unfold getConsentStatus
  rw [hget]
  show (match parseFlatObj (consentCookieValue st ts) with
    | none => Except.ok none
    | some ps => Except.ok (getStatusField ps)) = Except.ok (some st)
  rw [hparse]
  simp [getStatusField, List.find?]

/-! ### Controller-level support lemmas -/

theorem hideBanner_fields (s : CMState) :
    (hideBanner s).consentStatus = s.consentStatus ∧
    (hideBanner s).sessionBannerShown = s.sessionBannerShown ∧
    (hideBanner s).jar = s.jar ∧ (hideBanner s).scripts = s.scripts := by
  unfold hideBanner
  split <;> exact ⟨rfl, rfl, rfl, rfl⟩

theorem showBanner_fields (s : CMState) :
    (showBanner s).consentStatus = s.consentStatus ∧
    (showBanner s).sessionBannerShown = s.sessionBannerShown ∧
    (showBanner s).jar = s.jar ∧ (showBanner s).scripts = s.scripts := by
  unfold showBanner
  split <;> exact ⟨rfl, rfl, rfl, rfl⟩

theorem loadScript_shape (s : CMState) (src cat : List Char) :
    ∃ scr, (loadScript s src cat).1 = { s with scripts := scr } := by
  unfold loadScript
  by_cases h : (s.scripts.any fun t => t.src == src) = true
  · rw [if_pos h]
    exact ⟨s.scripts, rfl⟩
  · rw [if_neg h]
    exact ⟨_, rfl⟩

theorem loadScriptList_shape (s : CMState) (srcs : List (List Char)) (cat : List Char) :
    ∃ scr, (loadScriptList s srcs cat).1 = { s with scripts := scr } := by
  induction srcs generalizing s with
  | nil => exact ⟨s.scripts, rfl⟩
  | cons x xs ih =>
    obtain ⟨a, ha⟩ := loadScript_shape s x cat
    obtain ⟨b, hb⟩ := ih (loadScript s x cat).1
    refine ⟨b, ?_⟩
    rw [show (loadScriptList s (x :: xs) cat).1
        = (loadScriptList (loadScript s x cat).1 xs cat).1 from rfl]
    rw [hb, ha]

theorem loadEssentialScripts_shape (s : CMState) :
    ∃ scr, (loadEssentialScripts s).1 = { s with scripts := scr } :=
  loadScriptList_shape s essentialScripts _

theorem loadEssentialScripts_consent (s : CMState) :
    (loadEssentialScripts s).1.consentStatus = s.consentStatus := by
  obtain ⟨scr, h⟩ := loadEssentialScripts_shape s
  rw [h]

theorem loadEssentialScripts_flag (s : CMState) :
    (loadEssentialScripts s).1.sessionBannerShown = s.sessionBannerShown := by
  obtain ⟨scr, h⟩ := loadEssentialScripts_shape s
  rw [h]

theorem loadEssentialScripts_bannerShow (s : CMState) :
    (loadEssentialScripts s).1.bannerShow = s.bannerShow := by
  obtain ⟨scr, h⟩ := loadEssentialScripts_shape s
  rw [h]

theorem loadAllScripts_shape (s : CMState) :
    ∃ scr, (loadAllScripts s).1 = { s with scripts := scr } := by
  obtain ⟨a, ha⟩ := loadEssentialScripts_shape s
  obtain ⟨b, hb⟩ := loadScriptList_shape (loadEssentialScripts s).1
    analyticsScripts "analytics".data
  obtain ⟨c, hc⟩ := loadScriptList_shape
    (loadScriptList (loadEssentialScripts s).1 analyticsScripts "analytics".data).1
    externalScripts "external".data
  simp only [loadAllScripts]
  split
  · exact ⟨c, by rw [hc, hb, ha]⟩
  · exact ⟨a, ha⟩

theorem loadAllScripts_consent (s : CMState) :
    (loadAllScripts s).1.consentStatus = s.consentStatus := by
  obtain ⟨scr, h⟩ := loadAllScripts_shape s
  rw [h]

theorem loadAllScripts_flag (s : CMState) :
    (loadAllScripts s).1.sessionBannerShown = s.sessionBannerShown := by
  obtain ⟨scr, h⟩ := loadAllScripts_shape s
  rw [h]

theorem loadAllScripts_bannerShow (s : CMState) :
    (loadAllScripts s).1.bannerShow = s.bannerShow := by
  obtain ⟨scr, h⟩ := loadAllScripts_shape s
  rw [h]

theorem loadScriptList_events (s : CMState) (srcs : List (List Char)) (cat : List Char) :
    ∀ e ∈ (loadScriptList s srcs cat).2, ∃ src, e = Ev.loadRequest src cat := by
  induction srcs generalizing s with
  | nil => intro e he; simp [loadScriptList] at he
  | cons x xs ih =>
    intro e he
    rw [show (loadScriptList s (x :: xs) cat).2
        = (loadScript s x cat).2 ++ (loadScriptList (loadScript s x cat).1 xs cat).2
        from rfl] at he
    rcases List.mem_append.mp he with he | he
    · unfold loadScript at he
      by_cases h : (s.scripts.any fun t => t.src == x) = true
      · rw [if_pos h] at he
        simp at he
      · rw [if_neg h] at he
        simp only [List.mem_singleton] at he
        exact ⟨x, he⟩
    · exact ih (loadScript s x cat).1 e he

theorem loadEssentialScripts_events (s : CMState) :
    ∀ e ∈ (loadEssentialScripts s).2, ∃ src, e = Ev.loadRequest src "essential".data :=
  loadScriptList_events s essentialScripts _

theorem loadAllScripts_events_not_accepted (s : CMState)
    (h : s.consentStatus ≠ some "accepted".data) :
    ∀ e ∈ (loadAllScripts s).2, ∃ src, e = Ev.loadRequest src "essential".data := by
  intro e he
  have hcond : ((loadEssentialScripts s).1.consentStatus == some "accepted".data) = false := by
    rw [loadEssentialScripts_consent]
    exact beq_eq_false_iff_ne.mpr h
  simp only [loadAllScripts] at he
  rw [if_neg (by simp [hcond])] at he
  exact loadEssentialScripts_events s e he

theorem loadAllScripts_nonessential (s : CMState) (src cat : List Char)
    (he : Ev.loadRequest src cat ∈ (loadAllScripts s).2) (hcat : cat ≠ "essential".data) :
    s.consentStatus = some "accepted".data := by
  by_cases h : s.consentStatus = some "accepted".data
  · exact h
  · obtain ⟨src2, hsrc⟩ := loadAllScripts_events_not_accepted s h _ he
    simp only [Ev.loadRequest.injEq] at hsrc
    exact absurd hsrc.2 hcat

theorem acceptCookies_consent (s : CMState) (ts : List Char) :
    (acceptCookies s ts).1.consentStatus = some "accepted".data := by
  show (loadAllScripts (hideBanner (setConsentStatus s "accepted".data ts).1)).1.consentStatus
      = some "accepted".data
  rw [loadAllScripts_consent, (hideBanner_fields _).1]
  rfl

theorem acceptCookies_flag (s : CMState) (ts : List Char) :
    (acceptCookies s ts).1.sessionBannerShown = some "true".data := rfl

theorem declineCookies_flag (s : CMState) (ts : List Char) :
    (declineCookies s ts).1.sessionBannerShown = some "true".data := rfl

theorem declineCookies_events (s : CMState) (ts src cat : List Char)
    (he : Ev.loadRequest src cat ∈ (declineCookies s ts).2) : cat = "essential".data := by
  have he2 : Ev.loadRequest src cat ∈
      (setConsentStatus s "declined".data ts).2
        ++ (loadEssentialScripts (hideBanner (setConsentStatus s "declined".data ts).1)).2 := he
  rcases List.mem_append.mp he2 with h | h
  · simp [setConsentStatus] at h
  · obtain ⟨src2, hsrc⟩ := loadEssentialScripts_events _ _ h
    simp only [Ev.loadRequest.injEq] at hsrc
    exact hsrc.2

theorem checkConsent_nonessential (s : CMState) (src cat : List Char)
    (he : Ev.loadRequest src cat ∈ (checkConsent s).2) (hcat : cat ≠ "essential".data) :
    (checkConsent s).1.consentStatus = some "accepted".data := by
  unfold checkConsent at he ⊢
  by_cases h1 : (s.consentStatus == some "accepted".data) = true
  · rw [if_pos h1]
    rw [loadAllScripts_consent, (hideBanner_fields s).1]
    exact eq_of_beq h1
  · rw [if_neg h1] at he ⊢
    by_cases h2 : (s.consentStatus == some "declined".data) = true
    · rw [if_pos h2] at he
      obtain ⟨src2, hsrc⟩ := loadEssentialScripts_events _ _ he
      simp only [Ev.loadRequest.injEq] at hsrc
      exact absurd hsrc.2 hcat
    · rw [if_neg h2] at he
      by_cases h3 : (s.sessionBannerShown == some "true".data) = true
      · rw [if_pos h3] at he
        obtain ⟨src2, hsrc⟩ := loadEssentialScripts_events _ _ he
        simp only [Ev.loadRequest.injEq] at hsrc
        exact absurd hsrc.2 hcat
      · rw [if_neg h3] at he
        obtain ⟨src2, hsrc⟩ := loadEssentialScripts_events _ _ he
        simp only [Ev.loadRequest.injEq] at hsrc
        exact absurd hsrc.2 hcat

theorem updateConsent_invalid (s : CMState) (x ts : List Char)
    (h1 : x ≠ "accepted".data) (h2 : x ≠ "declined".data) :
    updateConsent s x ts = (s, []) := by
  unfold updateConsent
  rw [if_neg (by simp [h1, h2])]

theorem updateConsent_accepted_consent (s : CMState) (ts : List Char) :
    (updateConsent s "accepted".data ts).1.consentStatus = some "accepted".data := by
  show (loadAllScripts (setConsentStatus s "accepted".data ts).1).1.consentStatus
      = some "accepted".data
  rw [loadAllScripts_consent]
  rfl

theorem updateConsent_accepted_flag (s : CMState) (ts : List Char) :
    (updateConsent s "accepted".data ts).1.sessionBannerShown = s.sessionBannerShown := by
  show (loadAllScripts (setConsentStatus s "accepted".data ts).1).1.sessionBannerShown
      = s.sessionBannerShown
  rw [loadAllScripts_flag]
  rfl

theorem updateConsent_declined_flag (s : CMState) (ts : List Char) :
    (updateConsent s "declined".data ts).1.sessionBannerShown = s.sessionBannerShown := by
  show (loadEssentialScripts (setConsentStatus s "declined".data ts).1).1.sessionBannerShown
      = s.sessionBannerShown
  rw [loadEssentialScripts_flag]
  rfl

theorem updateConsent_declined_events (s : CMState) (ts src cat : List Char)
    (he : Ev.loadRequest src cat ∈ (updateConsent s "declined".data ts).2) :
    cat = "essential".data := by
  have he2 : Ev.loadRequest src cat ∈
      (setConsentStatus s "declined".data ts).2
        ++ (loadEssentialScripts (setConsentStatus s "declined".data ts).1).2 := he
  rcases List.mem_append.mp he2 with h | h
  · simp [setConsentStatus] at h
  · obtain ⟨src2, hsrc⟩ := loadEssentialScripts_events _ _ h
    simp only [Ev.loadRequest.injEq] at hsrc
    exact hsrc.2

theorem loadScript_flag (s : CMState) (src cat : List Char) :
    (loadScript s src cat).1.sessionBannerShown = s.sessionBannerShown := by
  obtain ⟨scr, h⟩ := loadScript_shape s src cat
  rw [h]

theorem resetConsent_flag (s : CMState) :
    (resetConsent s).sessionBannerShown = s.sessionBannerShown := by
  unfold resetConsent
  rw [(showBanner_fields _).2.1]

theorem resetConsent_bannerShow (s : CMState) (hb : s.bannerPresent = true) :
    (resetConsent s).bannerShow = true := by
  have hb2 : ({ s with jar := deleteCookie s.jar cookieName,
                       consentStatus := none } : CMState).bannerPresent = true := hb
  unfold resetConsent showBanner
  rw [if_pos hb2]

/-! ### Concrete states and inputs used by witnesses and counterexamples -/

/-- A fresh page: no persisted decision, no session flag, no script tags,
banner element present, banner hidden. -/
def stateUnset : CMState :=
  { consentStatus := none, jar := [], sessionBannerShown := none,
    scripts := [], bannerPresent := true, bannerShow := false }

def stateAccepted : CMState := { stateUnset with consentStatus := some "accepted".data }

def stateDeclined : CMState := { stateUnset with consentStatus := some "declined".data }

def stateFlagTrue : CMState := { stateUnset with sessionBannerShown := some "true".data }

/-- A sample ISO-8601 clock reading. -/
def sampleIso : List Char := "2026-01-01T00:00:00.000Z".data

/-- The jar after persisting an accepted decision. -/
def jarAccepted : List CookieEntry :=
  setCookie [] cookieName (consentCookieValue "accepted".data sampleIso) cookieExpiry

/-- A jar whose payload is well-formed JSON with an unknown status value. -/
def jarBanana : List CookieEntry :=
  setCookie [] cookieName (consentCookieValue "banana".data sampleIso) cookieExpiry

/-- The category the resource catalog (constructor lines 17-22) assigns to
a source path; markup `script` tags carry no `data-category`, so this is
the catalog's own partition. -/
def catalogCategory (src : List Char) : List Char :=
  if essentialScripts.contains src then "essential".data
  else if analyticsScripts.contains src then "analytics".data
  else if marketingScripts.contains src then "marketing".data
  else if externalScripts.contains src then "external".data
  else "uncategorized".data

/-- Model of the browser's HTML parsing phase: every plain `script[src]`
element present in the static markup is fetched and executed by the parser
while the document is parsed, and `DOMContentLoaded` — the event on which
the page constructs its `CookieManager` (line 412) — fires only after
that.  Writing attributes or `display:none` on a script element afterwards
does not undo or prevent these fetches. -/
def markupPhaseEvents (markup : List ScriptTag) : List Ev :=
  markup.map (fun t => Ev.loadRequest t.src (catalogCategory t.src))

/-- A whole page view: the parser phase fetches the markup scripts, then
the `DOMContentLoaded` handler runs the constructor. -/
def pageTrace (jar : List CookieEntry) (flag : Option (List Char))
    (markup : List ScriptTag) : Except String (List Ev) :=
  match constructorRun jar flag markup true with
  | Except.error e => Except.error e
  | Except.ok r => Except.ok (markupPhaseEvents markup ++ r.2)

/-- A static analytics `<script src="js/analytics.js">` element as the
page's markup would carry it (no category attribute, not blocked). -/
def analyticsMarkupTag : ScriptTag :=
  { src := "js/analytics.js".data, category := none, blocked := false,
    integrity := none, crossOrigin := none }

/-! ### Claims -/

/-- Claim C1, counterexample: with the decision Unset (`consentStatus`
null), `isCategoryAllowed('essential')` returns `false` — the source falls
through to `return false` before ever special-casing `essential` — whereas
the claim asserts it is true for every decision including Unset. -/
theorem isCategoryAllowed_essential_unset_false :
    isCategoryAllowed stateUnset "essential".data = false := rfl

/-- Claim C1 (amended): `isCategoryAllowed(category)` returns true for
every category when the decision is Accepted; when Declined it returns
true iff the category is `essential`; for any other decision value
(including Unset) it returns false for every category, `essential`
included. -/
theorem isCategoryAllowed_cases (s : CMState) (cat : List Char) :
    (s.consentStatus = some "accepted".data → isCategoryAllowed s cat = true) ∧
    (s.consentStatus = some "declined".data →
      isCategoryAllowed s cat = (cat == "essential".data)) ∧
    (s.consentStatus ≠ some "accepted".data → s.consentStatus ≠ some "declined".data →
      isCategoryAllowed s cat = false) := by
  refine ⟨?_, ?_, ?_⟩
  · intro h
    unfold isCategoryAllowed
    rw [if_pos (by rw [h]; rfl)]
  · intro h
    unfold isCategoryAllowed
    rw [if_neg (by rw [h]; decide), if_pos (by rw [h]; rfl)]
  · intro h1 h2
    unfold isCategoryAllowed
    rw [if_neg (by simpa using beq_eq_false_iff_ne.mpr h1),
        if_neg (by simpa using beq_eq_false_iff_ne.mpr h2)]

/-- Witness for C1: the amended case analysis evaluated at concrete
states. -/
theorem isCategoryAllowed_cases_inst :
    isCategoryAllowed stateAccepted "marketing".data = true ∧
    isCategoryAllowed stateDeclined "analytics".data = false ∧
    isCategoryAllowed stateUnset "analytics".data = false := by
  refine ⟨?_, ?_, ?_⟩
  · exact (isCategoryAllowed_cases stateAccepted "marketing".data).1 rfl
  · rw [(isCategoryAllowed_cases stateDeclined "analytics".data).2.1 rfl]
    decide
  · exact (isCategoryAllowed_cases stateUnset "analytics".data).2.2
      (by decide) (by decide)

theorem loadScript_not_present (s : CMState) (src cat : List Char)
    (h : (s.scripts.any fun t => t.src == src) = false) :
    ∃ tag : ScriptTag, tag.src = src ∧
      (loadScript s src cat).1 = { s with scripts := s.scripts ++ [tag] } ∧
      (loadScript s src cat).2 = [Ev.loadRequest src cat] := by
  unfold loadScript
  rw [if_neg (by simp [h])]
  refine ⟨_, ?_, rfl, rfl⟩
  split
  · split <;> rfl
  · rfl

/-- Claim C6: `loadScript` is idempotent per `src`: after a first call has
injected the tag (covering both the pending and the completed stages —
the tag is in the document from the synchronous append on), a second call
for the same `src` changes nothing and emits nothing, so exactly one load
request is made for that identifier. -/
theorem loadScript_idempotent (s : CMState) (src cat cat2 : List Char)
    (h : (s.scripts.any fun t => t.src == src) = false) :
    loadScript (loadScript s src cat).1 src cat2 = ((loadScript s src cat).1, []) ∧
    (loadedSrcs ((loadScript s src cat).2
        ++ (loadScript (loadScript s src cat).1 src cat2).2)).count src = 1 := by
  obtain ⟨tag, htag, hs1, hev⟩ := loadScript_not_present s src cat h
  have hany : ((loadScript s src cat).1.scripts.any fun t => t.src == src) = true := by
    rw [hs1]
    show ((s.scripts ++ [tag]).any fun t => t.src == src) = true
    rw [List.any_append]
    simp [htag]
  have hnoop : ∀ s1 : CMState, ((s1.scripts.any fun t => t.src == src) = true) →
      loadScript s1 src cat2 = (s1, []) := by
    intro s1 h1
    unfold loadScript
    rw [if_pos h1]
  refine ⟨hnoop _ hany, ?_⟩
  rw [hev, show (loadScript (loadScript s src cat).1 src cat2).2 = []
    from congrArg Prod.snd (hnoop _ hany)]
  simp [loadedSrcs]

/-- Witness for C6 at a fresh page and the analytics script. -/
theorem loadScript_idempotent_inst :
    loadScript (loadScript stateUnset "js/analytics.js".data "analytics".data).1
        "js/analytics.js".data "analytics".data
      = ((loadScript stateUnset "js/analytics.js".data "analytics".data).1, []) :=
  (loadScript_idempotent stateUnset "js/analytics.js".data "analytics".data
    "analytics".data (by rfl)).1

/-- Claim C7: for d in accepted/declined, `setConsentStatus(d)` followed by
a fresh `getConsentStatus()` read of the persisted jar yields d.  The jar
is any well-formed browser jar; the timestamp is any ASCII string free of
quote and backslash (every ISO-8601 string qualifies). -/
theorem consent_roundTrip (s : CMState) (d ts : List Char)
    (hw : wfJar s.jar = true)
    (hd : d = "accepted".data ∨ d = "declined".data)
    (htsp : plainStr ts = true) (htsa : asciiStr ts = true) :
    getConsentStatus (setConsentStatus s d ts).1.jar = Except.ok (some d) := by
  have hjar : (setConsentStatus s d ts).1.jar
      = setCookie s.jar cookieName (consentCookieValue d ts) cookieExpiry := rfl
  rw [hjar]
  rcases hd with rfl | rfl
  · exact getConsentStatus_after_set s.jar _ ts hw (by decide) (by decide) htsp htsa
  · exact getConsentStatus_after_set s.jar _ ts hw (by decide) (by decide) htsp htsa

/-- Witness for C7: the round trip from a fresh page at a concrete time. -/
theorem consent_roundTrip_inst :
    getConsentStatus (setConsentStatus stateUnset "accepted".data sampleIso).1.jar
      = Except.ok (some "accepted".data) :=
  consent_roundTrip stateUnset "accepted".data sampleIso (by decide)
    (Or.inl rfl) (by decide) (by decide)

/-- Claim C8, counterexample: the record `setConsentStatus` persists (at a
concrete write time) carries exactly the field names `status`, `timestamp`
and `version` — there is no `schemaVersion` field, contradicting the
claim's field list.  The write goes to the fixed `cookie-consent` key for
365 days. -/
theorem setConsent_no_schemaVersion_field :
    (parseFlatObj (consentCookieValue "accepted".data sampleIso)).map
        (fun ps => ps.map (fun p => p.1))
      = some ["status".data, "timestamp".data, "version".data] ∧
    ((parseFlatObj (consentCookieValue "accepted".data sampleIso)).map
        (fun ps => decide ("schemaVersion".data ∈ ps.map (fun p => p.1))))
      = some false ∧
    (setConsentStatus stateUnset "accepted".data sampleIso).1.jar
      = [{ name := cookieName,
           value := encodeURIComponent (consentCookieValue "accepted".data sampleIso),
           days := 365 }] := by
  refine ⟨?_, ?_, ?_⟩ <;> rfl

/-- Claim C8 (amended): `setConsentStatus` persists, under the fixed
`cookie-consent` key with a 365-day window, the percent-encoded JSON record
whose fields are exactly `status` (the decision), `timestamp` (the
ISO-8601 write time) and `version` (the string "2.0") — the spec's
`schemaVersion` field is called `version` in the record. -/
theorem setConsent_record_shape (s : CMState) (st ts : List Char)
    (hstp : plainStr st = true) (htsp : plainStr ts = true) :
    ((setConsentStatus s st ts).1.jar.find? (fun e => e.name == cookieName)).map
        (fun e => (e.value, e.days))
      = some (encodeURIComponent (consentCookieValue st ts), 365) ∧
    parseFlatObj (consentCookieValue st ts)
      = some [("status".data, st), ("timestamp".data, ts), ("version".data, "2.0".data)] := by
  constructor
  · exact find_setCookieJar s.jar cookieName
      (encodeURIComponent (consentCookieValue st ts)) cookieExpiry
  · exact parse_consentCookieValue st ts hstp htsp

/-- Witness for C8 at a concrete state and time. -/
theorem setConsent_record_shape_inst :
    ((setConsentStatus stateUnset "declined".data sampleIso).1.jar.find?
        (fun e => e.name == cookieName)).map (fun e => (e.value, e.days))
      = some (encodeURIComponent (consentCookieValue "declined".data sampleIso), 365) :=
  (setConsent_record_shape stateUnset "declined".data sampleIso
    (by decide) (by decide)).1

/-- Claim C9: `updateConsent(x)` for any x other than accepted/declined is
a complete no-op: the returned state is the input state unchanged (same
in-memory decision, jar, loaded scripts and banner) and no event is
dispatched. -/
theorem updateConsent_invalid_noop (s : CMState) (x ts : List Char)
    (h1 : x ≠ "accepted".data) (h2 : x ≠ "declined".data) :
    updateConsent s x ts = (s, []) :=
  updateConsent_invalid s x ts h1 h2

/-- Witness for C9 on a concrete invalid argument. -/
theorem updateConsent_invalid_noop_inst :
    updateConsent stateDeclined "banana".data sampleIso = (stateDeclined, []) :=
  updateConsent_invalid_noop stateDeclined "banana".data sampleIso
    (by decide) (by decide)

/-- The gating the code does perform, in support of the C2 analysis: (1)
`blockNonEssentialScripts` marks every non-essential markup script with
the `data-blocked` attribute; (2) while the decision is anything but
Accepted, `loadAllScripts` requests only the essential category; (3) over
every controller entry point (the raw `loadScript` helper excepted), any
load request the controller itself emits for a non-essential category
happens with the decision Accepted.  None of this reaches the markup
scripts the parser has already fetched (see the C2 theorem below). -/
theorem nonessential_gated :
    (∀ (s : CMState), ∀ t ∈ (blockNonEssentialScripts s).scripts,
      isEssentialScript t.src = false → t.blocked = true) ∧
    (∀ s : CMState, s.consentStatus ≠ some "accepted".data →
      ∀ e ∈ (loadAllScripts s).2, ∃ src, e = Ev.loadRequest src "essential".data) ∧
    (∀ (op : Op) (s : CMState), op.isDirectLoad = false →
      ∀ src cat, Ev.loadRequest src cat ∈ (applyOp op s).2 → cat ≠ "essential".data →
      (applyOp op s).1.consentStatus = some "accepted".data) := by
  refine ⟨?_, ?_, ?_⟩
  · intro s t ht hness
    simp only [blockNonEssentialScripts, List.mem_map] at ht
    obtain ⟨u, hu, rfl⟩ := ht
    by_cases h : isEssentialScript u.src = true
    · rw [if_pos h] at hness ⊢
      rw [h] at hness
      simp at hness
    · rw [if_neg h] at hness ⊢
  · exact loadAllScripts_events_not_accepted
  · intro op s hop src cat he hcat
    cases op with
    | checkConsentOp => exact checkConsent_nonessential s src cat he hcat
    | acceptOp ts => exact acceptCookies_consent s ts
    | declineOp ts => exact absurd (declineCookies_events s ts src cat he) hcat
    | updateOp x ts =>
      by_cases hx1 : x = "accepted".data
      · subst hx1
        exact updateConsent_accepted_consent s ts
      · by_cases hx2 : x = "declined".data
        · subst hx2
          exact absurd (updateConsent_declined_events s ts src cat he) hcat
        · rw [show applyOp (Op.updateOp x ts) s = updateConsent s x ts from rfl,
              updateConsent_invalid s x ts hx1 hx2] at he
          simp at he
    | resetOp => simp [applyOp] at he
    | loadOp src2 cat2 => simp [Op.isDirectLoad] at hop
    | showOp => simp [applyOp] at he
    | hideOp => simp [applyOp] at he
    | blockOp => simp [applyOp] at he

/-- Instance of the gating lemma: accepting from an undecided page makes
the decision Accepted at the moment the analytics request is emitted. -/
theorem nonessential_gated_inst :
    (applyOp (Op.acceptOp sampleIso) stateUnset).1.consentStatus
      = some "accepted".data :=
  nonessential_gated.2.2 (Op.acceptOp sampleIso) stateUnset rfl
    "js/analytics.js".data "analytics".data (by decide) (by decide)

/-- Claim C2, the code evaluated at the failing input: a page whose static
markup carries `<script src="js/analytics.js">` with no decision persisted.
The parser phase fetches and runs the analytics script before the
`DOMContentLoaded` constructor ever executes, so the page trace opens with
a non-essential load request while the decision is Unset — contrary to the
claim (and to the source's own comments, which say the script tags are
blocked/removed).  The constructor's `blockNonEssentialScripts` then only
writes the `data-blocked` marker on the already-fetched tag — the tag is
not removed (it stays in the document, marked, next to the two essential
tags the controller injects) — and the in-memory decision is still Unset
with the banner shown.  The `data-blocked` attribute is written at lines
212-223 and read nowhere in the source. -/
theorem pageTrace_markup_analytics_unset :
    pageTrace [] none [analyticsMarkupTag]
      = Except.ok [Ev.loadRequest "js/analytics.js".data "analytics".data,
                   Ev.loadRequest "js/main.js".data "essential".data,
                   Ev.loadRequest "js/cookies.js".data "essential".data] ∧
    (constructorRun [] none [analyticsMarkupTag] true).map
        (fun r => (r.1.scripts.map (fun t => (t.src, t.blocked)),
                   r.1.consentStatus, r.1.bannerShow))
      = Except.ok ([("js/analytics.js".data, true),
                    ("js/main.js".data, false),
                    ("js/cookies.js".data, false)], none, true) := by
  refine ⟨?_, ?_⟩ <;> rfl

set_option maxRecDepth 8000 in
/-- Claim C3, counterexample: a well-formed persisted payload whose status
field holds the unknown value `banana` makes `getConsentStatus` return that
value verbatim — not Unset (`null`) as the claim asserts. -/
theorem getConsentStatus_unknown_passthrough :
    getConsentStatus jarBanana = Except.ok (some "banana".data) ∧
    (Except.ok (some "banana".data) : Except String (Option (List Char)))
      ≠ Except.ok none := by
  refine ⟨by rfl, by simp⟩

/-- Claim C3 (amended): `getConsentStatus` returns Unset (`null`) without
throwing when the record is absent and when the stored value decodes but is
not valid JSON (the `try`/`catch` around `JSON.parse`); when the payload is
well-formed its `status` field is returned verbatim — an unknown value is
passed through, and only the callers treat it as undecided. -/
theorem getConsentStatus_soft (v : List Char)
    (hv : ∀ c ∈ v, (c == ';') = false ∧ (c == ' ') = false) :
    getConsentStatus [] = Except.ok none ∧
    (∀ w, decodeURIComponent v = some w → parseFlatObj w = none →
      getConsentStatus [{ name := cookieName, value := v, days := cookieExpiry }]
        = Except.ok none) ∧
    (∀ w ps, decodeURIComponent v = some w → parseFlatObj w = some ps →
      getConsentStatus [{ name := cookieName, value := v, days := cookieExpiry }]
        = Except.ok (getStatusField ps)) := by
  have hwjar : wfJar [{ name := cookieName, value := v, days := cookieExpiry }] = true := by
    have hwv : wfValue v = true := by
      rw [wfValue, List.all_eq_true]
      intro c hc
      have := hv c hc
      simp [this.1, this.2]
    simp [wfJar, wfName, hwv]
    decide
  have hpiece := findCookiePiece_renderJar
    [{ name := cookieName, value := v, days := cookieExpiry }] cookieName hwjar (by decide)
  have hfind : (([{ name := cookieName, value := v, days := cookieExpiry }]
      : List CookieEntry).find? (fun e => e.name == cookieName)).map (fun e => e.value)
      = some v := by
    simp [List.find?]
  refine ⟨rfl, ?_, ?_⟩
  · intro w hdec hparse
    have hget : getCookie [{ name := cookieName, value := v, days := cookieExpiry }]
        cookieName = Except.ok (some w) := by
      unfold getCookie
      rw [hpiece, hfind]
      show (match decodeURIComponent v with
        | some x => Except.ok (some x)
        | none => Except.error "URIError") = Except.ok (some w)
      rw [hdec]
    unfold getConsentStatus
    rw [hget]
    show (match parseFlatObj w with
      | none => Except.ok none
      | some ps => Except.ok (getStatusField ps)) = Except.ok none
    rw [hparse]
  · intro w ps hdec hparse
    have hget : getCookie [{ name := cookieName, value := v, days := cookieExpiry }]
        cookieName = Except.ok (some w) := by
      unfold getCookie
      rw [hpiece, hfind]
      show (match decodeURIComponent v with
        | some x => Except.ok (some x)
        | none => Except.error "URIError") = Except.ok (some w)
      rw [hdec]
    unfold getConsentStatus
    rw [hget]
    show (match parseFlatObj w with
      | none => Except.ok none
      | some ps => Except.ok (getStatusField ps)) = Except.ok (getStatusField ps)
    rw [hparse]

/-- Witness for C3: a stored value that is not JSON reads back as Unset. -/
theorem getConsentStatus_soft_inst :
    getConsentStatus [{ name := cookieName, value := "notjson".data,
                        days := cookieExpiry }] = Except.ok none :=
  (getConsentStatus_soft "notjson".data (by decide)).2.1 "notjson".data rfl rfl

/-- Claim C4: with the decision Unset at `checkConsent` (and the banner
element present): when the session flag is not `true` the banner is shown,
the flag is set to `true`, and only essential resources are requested;
when the flag is already `true` the banner is hidden and again only
essential resources are requested — at most one banner presentation per
session while undecided. -/
theorem checkConsent_unset_banner (s : CMState) (hb : s.bannerPresent = true)
    (hs : s.consentStatus = none) :
    (s.sessionBannerShown ≠ some "true".data →
      (checkConsent s).1.bannerShow = true ∧
      (checkConsent s).1.sessionBannerShown = some "true".data ∧
      ∀ e ∈ (checkConsent s).2, ∃ src, e = Ev.loadRequest src "essential".data) ∧
    (s.sessionBannerShown = some "true".data →
      (checkConsent s).1.bannerShow = false ∧
      (checkConsent s).1.sessionBannerShown = some "true".data ∧
      ∀ e ∈ (checkConsent s).2, ∃ src, e = Ev.loadRequest src "essential".data) := by
  have h1 : ¬((s.consentStatus == some "accepted".data) = true) := by
    rw [hs]; decide
  have h2 : ¬((s.consentStatus == some "declined".data) = true) := by
    rw [hs]; decide
  constructor
  · intro hflag
    have h3 : ¬((s.sessionBannerShown == some "true".data) = true) := by
      simpa using beq_eq_false_iff_ne.mpr hflag
    unfold checkConsent
    rw [if_neg h1, if_neg h2, if_neg h3]
    refine ⟨?_, ?_, ?_⟩
    · rw [loadEssentialScripts_bannerShow]
      show (showBanner s).bannerShow = true
      unfold showBanner
      rw [if_pos hb]
    · rw [loadEssentialScripts_flag]
    · exact loadScriptList_events _ _ _
  · intro hflag
    have h3 : (s.sessionBannerShown == some "true".data) = true := by
      rw [hflag]; rfl
    unfold checkConsent
    rw [if_neg h1, if_neg h2, if_pos h3]
    refine ⟨?_, ?_, ?_⟩
    · rw [loadEssentialScripts_bannerShow]
      unfold hideBanner
      rw [if_pos hb]
    · rw [loadEssentialScripts_flag, (hideBanner_fields s).2.1]
      exact hflag
    · exact loadScriptList_events _ _ _

/-- Witness for C4: first and second page view of an undecided session. -/
theorem checkConsent_unset_banner_inst :
    (checkConsent stateUnset).1.bannerShow = true ∧
    (checkConsent stateUnset).1.sessionBannerShown = some "true".data ∧
    (checkConsent stateFlagTrue).1.bannerShow = false := by
  refine ⟨?_, ?_, ?_⟩
  · exact ((checkConsent_unset_banner stateUnset rfl rfl).1 (by decide)).1
  · exact ((checkConsent_unset_banner stateUnset rfl rfl).1 (by decide)).2.1
  · exact ((checkConsent_unset_banner stateFlagTrue rfl rfl).2 rfl).1

set_option maxRecDepth 8000 in
/-- Claim C5, counterexample: with an Accepted decision persisted before
construction and a clean page, init requests the essential, analytics and
external catalogs — but never `js/tracking.js`, the marketing catalog's
only entry, although the claim demands every catalog category including
Marketing. -/
theorem init_accepted_no_marketing :
    (constructorRun jarAccepted none [] true).map
        (fun r => ((loadedSrcs r.2).contains "js/tracking.js".data,
                   (loadedSrcs r.2).contains "js/analytics.js".data))
      = Except.ok (false, true) := by
  rfl

set_option maxRecDepth 8000 in
/-- Claim C5 (amended): when an Accepted decision is persisted before
construction, controller init hides the banner and — with no click —
requests the Essential, Analytics and External catalogs in order; the
Marketing catalog is not iterated by `loadAllScripts`. -/
theorem init_accepted_loads (jar : List CookieEntry) (flag : Option (List Char))
    (h : getConsentStatus jar = Except.ok (some "accepted".data)) :
    (constructorRun jar flag [] true).map (fun r => (r.1.bannerShow, loadedSrcs r.2))
      = Except.ok (false, essentialScripts ++ analyticsScripts ++ externalScripts) := by
  unfold constructorRun
  rw [h]
  rfl

set_option maxRecDepth 8000 in
/-- Witness for C5 with the concrete persisted-accepted jar. -/
theorem init_accepted_loads_inst :
    (constructorRun jarAccepted none [] true).map
        (fun r => (r.1.bannerShow, loadedSrcs r.2))
      = Except.ok (false, essentialScripts ++ analyticsScripts ++ externalScripts) :=
  init_accepted_loads jarAccepted none (by rfl)

/-- Claim C10: the session flag is monotone — no controller operation ever
clears it; accepting and declining set it; `resetConsent` leaves it
untouched while showing the banner again. -/
theorem sessionFlag_monotone :
    (∀ (op : Op) (s : CMState), sessionFlagSet s = true →
      sessionFlagSet (applyOp op s).1 = true) ∧
    (∀ (s : CMState) (ts : List Char), sessionFlagSet (acceptCookies s ts).1 = true) ∧
    (∀ (s : CMState) (ts : List Char), sessionFlagSet (declineCookies s ts).1 = true) ∧
    (∀ s : CMState, (resetConsent s).sessionBannerShown = s.sessionBannerShown ∧
      (s.bannerPresent = true → (resetConsent s).bannerShow = true)) := by
  have haccept : ∀ (s : CMState) (ts : List Char),
      sessionFlagSet (acceptCookies s ts).1 = true := by
    intro s ts
    unfold sessionFlagSet
    rw [acceptCookies_flag]
    rfl
  have hdecline : ∀ (s : CMState) (ts : List Char),
      sessionFlagSet (declineCookies s ts).1 = true := by
    intro s ts
    unfold sessionFlagSet
    rw [declineCookies_flag]
    rfl
  refine ⟨?_, haccept, hdecline, ?_⟩
  · intro op s hflag
    cases op with
    | checkConsentOp =>
      show sessionFlagSet (checkConsent s).1 = true
      unfold checkConsent
      by_cases h1 : (s.consentStatus == some "accepted".data) = true
      · rw [if_pos h1]
        unfold sessionFlagSet at hflag ⊢
        rw [loadAllScripts_flag, (hideBanner_fields s).2.1]
        exact hflag
      · rw [if_neg h1]
        by_cases h2 : (s.consentStatus == some "declined".data) = true
        · rw [if_pos h2]
          unfold sessionFlagSet at hflag ⊢
          rw [loadEssentialScripts_flag, (hideBanner_fields s).2.1]
          exact hflag
        · rw [if_neg h2]
          have h3 : (s.sessionBannerShown == some "true".data) = true := hflag
          rw [if_pos h3]
          unfold sessionFlagSet at hflag ⊢
          rw [loadEssentialScripts_flag, (hideBanner_fields s).2.1]
          exact hflag
    | acceptOp ts => exact haccept s ts
    | declineOp ts => exact hdecline s ts
    | updateOp x ts =>
      show sessionFlagSet (updateConsent s x ts).1 = true
      by_cases hx1 : x = "accepted".data
      · subst hx1
        unfold sessionFlagSet at hflag ⊢
        rw [updateConsent_accepted_flag]
        exact hflag
      · by_cases hx2 : x = "declined".data
        · subst hx2
          unfold sessionFlagSet at hflag ⊢
          rw [updateConsent_declined_flag]
          exact hflag
        · rw [updateConsent_invalid s x ts hx1 hx2]
          exact hflag
    | resetOp =>
      show sessionFlagSet (resetConsent s) = true
      unfold sessionFlagSet at hflag ⊢
      rw [resetConsent_flag]
      exact hflag
    | loadOp src cat =>
      show sessionFlagSet (loadScript s src cat).1 = true
      unfold sessionFlagSet at hflag ⊢
      rw [loadScript_flag]
      exact hflag
    | showOp =>
      show sessionFlagSet (showBanner s) = true
      unfold sessionFlagSet at hflag ⊢
      rw [(showBanner_fields s).2.1]
      exact hflag
    | hideOp =>
      show sessionFlagSet (hideBanner s) = true
      unfold sessionFlagSet at hflag ⊢
      rw [(hideBanner_fields s).2.1]
      exact hflag
    | blockOp => exact hflag
  · intro s
    exact ⟨resetConsent_flag s, fun hb => resetConsent_bannerShow s hb⟩

/-- Witness for C10: the flag survives a reset and is set by accepting. -/
theorem sessionFlag_monotone_inst :
    sessionFlagSet (applyOp Op.resetOp stateFlagTrue).1 = true ∧
    sessionFlagSet (acceptCookies stateUnset sampleIso).1 = true ∧
    (resetConsent stateFlagTrue).bannerShow = true :=
  ⟨sessionFlag_monotone.1 Op.resetOp stateFlagTrue (by decide),
   sessionFlag_monotone.2.1 stateUnset sampleIso,
   (sessionFlag_monotone.2.2.2 stateFlagTrue).2 (by decide)⟩

end Cookies
